import Mathlib

/-!
# theremin_synth: the sawtooth generator, the visualizer and the pointer mapping

A shallow embedding of `main.c`.

C `int` values are mathematical integers (`Int`); where an `int` sum of the
source must be representable in 32 bits the embedding tests it and records
the undefined case as `none`.  A conversion of a `double` to a machine
integer truncates toward zero; where the truncated value does not fit the
target type the C behaviour is undefined, which is recorded as `none` too.

C `double` arithmetic is read in two ways.

* Over exact rationals (`ℚ`): the definitions `generate_saw_wav`, `saw_loop`,
  `loop_step`, ... and the event loop.  This reading is used where the
  statement is about the arithmetic as written.
* Over IEEE 754 binary64 with round-to-nearest-even after every operation
  (`round_double`): the definitions ending in `_f64` and the visualizer
  `draw_waveform`.  This reading is used where the outcome depends on
  whether a running sum meets a bound exactly.  Results beyond the largest
  finite double are outside the embedding.
-/

namespace Theremin

/-! ## Constants of `main.c` -/

/-- The constant `WINDOW_H` (line 5). -/
def WINDOW_H : Int := 500

/-- The constant `WINDOW_W` (line 6). -/
def WINDOW_W : Int := 500

/-- The constant `SAMPLE_RATE` (line 8), samples per second. -/
def SAMPLE_RATE : Int := 48000

/-- The constant `GLOBAL_AMP` (line 9), the literal `0.8`. -/
def GLOBAL_AMP : ℚ := 8 / 10

/-- The constant `CHUNK_LEN_SAMPLES` (line 10). -/
def CHUNK_LEN_SAMPLES : Int := 1024

/-- The constant `INT16_MAX` of `stdint.h`. -/
def INT16_MAX : Int := 32767

/-- The constant `INT16_MIN` of `stdint.h`. -/
def INT16_MIN : Int := -32768

/-! ## Conversions -/

/-- Truncation toward zero, the value of a C conversion from `double` to an
integer type when it is representable. -/
def trunc (q : ℚ) : Int :=
  if 0 ≤ q then ⌊q⌋ else ⌈q⌉

/-- The cast `(Sint16) sample_amp` (line 34): the truncated value when it is
representable in 16 bits, `none` when it is not (undefined in C). -/
def toSint16 (q : ℚ) : Option Int :=
  if INT16_MIN ≤ trunc q ∧ trunc q ≤ INT16_MAX then some (trunc q) else none

/-! ## `generate_saw_wav` (lines 23-43) -/

/-- Line 26: `wavelen_samples = SAMPLE_RATE / tone_freq`. -/
def wavelen_samples (tone_freq : ℚ) : ℚ :=
  (SAMPLE_RATE : ℚ) / tone_freq

/-- Line 28: `max_amp_range = INT16_MAX * 2`. -/
def max_amp_range : ℚ :=
  ((INT16_MAX * 2 : Int) : ℚ)

/-- Line 29: `amp_increment = max_amp_range * tone_amp * GLOBAL_AMP / wavelen_samples`. -/
def amp_increment (tone_freq tone_amp : ℚ) : ℚ :=
  max_amp_range * tone_amp * GLOBAL_AMP / wavelen_samples tone_freq

/-- Line 30: `max_amp = INT16_MAX * tone_amp * GLOBAL_AMP`. -/
def max_amp (tone_amp : ℚ) : ℚ :=
  (INT16_MAX : ℚ) * tone_amp * GLOBAL_AMP

/-- One pass through the body of the `for` loop after the store of line 34
(lines 35-38): the reset test, then the increment. -/
def loop_step (inc mx sample_amp : ℚ) : ℚ :=
  (if sample_amp ≥ mx then -1 * mx else sample_amp) + inc

/-- The `for` loop of lines 33-39 run for `n` iterations from the running
amplitude `sample_amp`: the running amplitudes handed to the cast of line 34,
in buffer order, and the running amplitude when the loop ends. -/
def saw_loop (inc mx : ℚ) : Nat → ℚ → List ℚ × ℚ
  | 0, sample_amp => ([], sample_amp)
  | n + 1, sample_amp =>
    let r := saw_loop inc mx n (loop_step inc mx sample_amp)
    (sample_amp :: r.1, r.2)

/-- What one call of `generate_saw_wav` does. -/
structure GenResult where
  /-- The running amplitudes `sample_amp` at each store of line 34, index
  `i` being the value converted for `buffer_to_fill[i]`. -/
  running : List ℚ
  /-- The value of `saved_amplitude` after the call (line 42). -/
  saved_amplitude : ℚ
deriving DecidableEq

/-- The function `generate_saw_wav` with the globals `tone_freq`, `tone_amp`
and `saved_amplitude` passed explicitly.  A negative `len_samples` runs the
loop zero times. -/
def generate_saw_wav (tone_freq tone_amp saved_amplitude : ℚ) (len_samples : Int) :
    GenResult :=
  let inc := amp_increment tone_freq tone_amp
  let mx := max_amp tone_amp
  let r := saw_loop inc mx len_samples.toNat (saved_amplitude + inc)
  { running := r.1, saved_amplitude := r.2 }

/-- The elements `buffer_to_fill[0 .. len_samples-1]` after the call: each
running amplitude converted by `(Sint16)`. -/
def GenResult.buffer (r : GenResult) : List (Option Int) :=
  r.running.map toSint16

/-- Successive calls of `generate_saw_wav`, each call given as
`(tone_freq, tone_amp, len_samples)`, the global `saved_amplitude` threaded
from one call to the next: the result of every call, in order. -/
def run_calls (saved_amplitude : ℚ) : List (ℚ × ℚ × Int) → List GenResult
  | [] => []
  | (tone_freq, tone_amp, len_samples) :: rest =>
    let r := generate_saw_wav tone_freq tone_amp saved_amplitude len_samples
    r :: run_calls r.saved_amplitude rest

/-! ## IEEE 754 binary64 rounding -/

/-- The integer part of the base-2 logarithm of `n >= 1`, by halving at most
`fuel` times. -/
def log2_fuel : Nat → Nat → Nat
  | 0, _ => 0
  | fuel + 1, n => if n < 2 then 0 else log2_fuel fuel (n / 2) + 1

/-- The integer part of the base-2 logarithm of `n >= 1`. -/
def ilog2 (n : Nat) : Nat := log2_fuel n n

/-- The binary exponent of a nonzero rational: the integer `e` with
`2^e <= |x| < 2^(e+1)` (theorem `binade_spec`). -/
def binade (x : ℚ) : Int :=
  let e0 : Int := (ilog2 x.num.natAbs : Int) - (ilog2 x.den : Int)
  if (2 : ℚ) ^ e0 ≤ |x| then e0 else e0 - 1

/-- Rounding to the nearest integer, a tie going to the even neighbour. -/
def round_half_even (y : ℚ) : Int :=
  if y - (⌊y⌋ : ℚ) < 1 / 2 then ⌊y⌋
  else if 1 / 2 < y - (⌊y⌋ : ℚ) then ⌊y⌋ + 1
  else if ⌊y⌋ % 2 = 0 then ⌊y⌋ else ⌊y⌋ + 1

/-- The double nearest to `x` (ties to even): `x` is rounded to a multiple
of `2^(e-52)`, where `e` is its binary exponent, or -1022 for a subnormal. -/
def round_double (x : ℚ) : ℚ :=
  if x = 0 then 0 else
    (round_half_even (x / 2 ^ (max (binade x) (-1022) - 52)) : ℚ) *
      2 ^ (max (binade x) (-1022) - 52)

/-! ## `generate_saw_wav` in binary64 -/

/-- The literal `0.8` of `GLOBAL_AMP` as a double. -/
def GLOBAL_AMP_f64 : ℚ := round_double (8 / 10)

/-- Line 26 in binary64. -/
def wavelen_samples_f64 (tone_freq : ℚ) : ℚ :=
  round_double ((SAMPLE_RATE : ℚ) / tone_freq)

/-- Line 29 in binary64: two products and a quotient, left to right. -/
def amp_increment_f64 (tone_freq tone_amp : ℚ) : ℚ :=
  round_double (round_double (round_double (max_amp_range * tone_amp) * GLOBAL_AMP_f64) /
    wavelen_samples_f64 tone_freq)

/-- Line 30 in binary64: two products, left to right. -/
def max_amp_f64 (tone_amp : ℚ) : ℚ :=
  round_double (round_double ((INT16_MAX : ℚ) * tone_amp) * GLOBAL_AMP_f64)

/-- Lines 35-38 in binary64: the reset test, the product `-1 * max_amp`, the
sum `sample_amp += amp_increment`. -/
def loop_step_f64 (inc mx sample_amp : ℚ) : ℚ :=
  round_double ((if sample_amp ≥ mx then round_double (-1 * mx) else sample_amp) + inc)

/-- The `for` loop of lines 33-39 in binary64, as `saw_loop`. -/
def saw_loop_f64 (inc mx : ℚ) : Nat → ℚ → List ℚ × ℚ
  | 0, sample_amp => ([], sample_amp)
  | n + 1, sample_amp =>
    let r := saw_loop_f64 inc mx n (loop_step_f64 inc mx sample_amp)
    (sample_amp :: r.1, r.2)

/-- The function `generate_saw_wav` in binary64, as `generate_saw_wav`. -/
def generate_saw_wav_f64 (tone_freq tone_amp saved_amplitude : ℚ) (len_samples : Int) :
    GenResult :=
  let inc := amp_increment_f64 tone_freq tone_amp
  let mx := max_amp_f64 tone_amp
  let r := saw_loop_f64 inc mx len_samples.toNat (round_double (saved_amplitude + inc))
  { running := r.1, saved_amplitude := r.2 }

/-- The indices `i` at which a sequence drops, `xs[i+1] < xs[i]`, counted
from `i`. -/
def drop_indices : Nat → List ℚ → List Nat
  | i, a :: b :: rest =>
    if b < a then i :: drop_indices (i + 1) (b :: rest) else drop_indices (i + 1) (b :: rest)
  | _, _ => []

/-- The constant `INT_MAX` of `limits.h` for a 32-bit `int`. -/
def INT_MAX : Int := 2147483647

/-- The constant `INT_MIN` of `limits.h` for a 32-bit `int`. -/
def INT_MIN : Int := -2147483648

/-- A value representable as a 32-bit `int`. -/
def is_int (z : Int) : Prop := INT_MIN ≤ z ∧ z ≤ INT_MAX

instance (z : Int) : Decidable (is_int z) := by
  unfold is_int; infer_instance

/-- The implicit conversion of a `double` argument to `int`: the truncated
value when representable, `none` when not (undefined in C). -/
def toInt (q : ℚ) : Option Int :=
  if is_int (trunc q) then some (trunc q) else none

/-- The fields of `SDL_Rect`. -/
structure SDL_Rect where
  x : Int
  y : Int
  w : Int
  h : Int
deriving DecidableEq

/-- One pass through the body of the `while` loop of `draw_waveform`: the
index at which `global_buffer` is read and the arguments of the
`SDL_RenderDrawLine` call. -/
structure DrawCall where
  /-- The index `(int)sample_index` of line 75. -/
  index : Int
  /-- The element read, `none` when `index` is outside the buffer. -/
  sample : Option Int
  /-- The arguments `x1` and `x2`, both the column `x`. -/
  x : Int
  /-- The argument `y1`, `mid_y`. -/
  y1 : Int
  /-- The argument `y2`, `mid_y + amp_scaled` converted to `int`; `none`
  when no element was read or the conversion is out of range. -/
  y2 : Option Int
deriving DecidableEq

/-- The read `global_buffer[i]`: defined only inside the array. -/
def read_buffer (global_buffer : List Int) (i : Int) : Option Int :=
  if 0 ≤ i then global_buffer[i.toNat]? else none

/-- Lines 75 and 77 in binary64, the read of `global_buffer` and the
`SDL_RenderDrawLine` call, at column `x` and accumulator `sample_index`. -/
def draw_line (global_buffer : List Int) (target_rect : SDL_Rect) (mid_y : Int)
    (x : Int) (sample_index : ℚ) : DrawCall :=
  let index := trunc sample_index
  let sample := read_buffer global_buffer index
  let y2 := sample.bind fun v =>
    toInt (round_double ((mid_y : ℚ) +
      round_double (round_double ((v : ℚ) / (INT16_MAX : ℚ)) * (target_rect.h : ℚ))))
  { index := index, sample := sample, x := x, y1 := mid_y, y2 := y2 }

/-- The `while` loop of lines 74-80 from column `x` and accumulator
`sample_index`, the sum of line 78 rounded to a double: the passes through
its body, in order. -/
def draw_loop (global_buffer : List Int) (target_rect : SDL_Rect) (mid_y : Int)
    (samples_per_draw_coord : ℚ) (x : Int) (sample_index : ℚ) : List DrawCall :=
  if x < target_rect.x + target_rect.w then
    draw_line global_buffer target_rect mid_y x sample_index ::
      draw_loop global_buffer target_rect mid_y samples_per_draw_coord (x + 1)
        (round_double (sample_index + samples_per_draw_coord))
  else []
termination_by (target_rect.x + target_rect.w - x).toNat
decreasing_by omega

/-- The function `draw_waveform` with the global `global_buffer` passed
explicitly: the `SDL_RenderDrawLine` calls it makes, in order.  The result
is `none` when the sum `y + h / 2` of line 68 or the sum `x + w` of line 74
is not representable as an `int` (undefined in C); with both representable
the column `x` never leaves the `int` range. -/
def draw_waveform (global_buffer : List Int) (target_rect : SDL_Rect) :
    Option (List DrawCall) :=
  let mid_y := target_rect.y + Int.tdiv target_rect.h 2
  let samples_per_draw_coord := round_double ((CHUNK_LEN_SAMPLES : ℚ) / (target_rect.w : ℚ))
  if is_int mid_y ∧ is_int (target_rect.x + target_rect.w) then
    some (draw_loop global_buffer target_rect mid_y samples_per_draw_coord target_rect.x 0)
  else none

/-! ## The event loop of `main` (lines 124-175) -/

/-- The scancodes `main` distinguishes. -/
inductive SDL_Scancode where
  | SDL_SCANCODE_L
  | SDL_SCANCODE_K
  | other
deriving DecidableEq

/-- The events `main` distinguishes, with the fields it reads. -/
inductive SDL_Event where
  | SDL_QUIT
  | SDL_KEYDOWN (scancode : SDL_Scancode)
  | SDL_MOUSEMOTION (x y : Int)
  | other
deriving DecidableEq

/-- The variables the event loop writes. -/
structure LoopState where
  tone_freq : ℚ
  tone_amp : ℚ
  quit : Bool
  /-- The `pause_on` argument of the latest `SDL_PauseAudioDevice` call. -/
  pause_on : Option Int
deriving DecidableEq

/-- The state when the main loop is entered: the defaults of lines 125-126
and `quit = false` (line 141). -/
def main_init : LoopState :=
  { tone_freq := 220, tone_amp := 1 / 10, quit := false, pause_on := none }

/-- The body of `while (SDL_PollEvent(&e))` (lines 151-174) for one event. -/
def handle_event (st : LoopState) : SDL_Event → LoopState
  | .SDL_QUIT => { st with quit := true }
  | .SDL_KEYDOWN .SDL_SCANCODE_L => { st with pause_on := some 0 }
  | .SDL_KEYDOWN .SDL_SCANCODE_K => { st with pause_on := some 1 }
  | .SDL_KEYDOWN .other => st
  | .SDL_MOUSEMOTION x y =>
    let mouse_x_relative : ℚ := (x : ℚ) / (WINDOW_W : ℚ)
    let mouse_y_relative : ℚ := 1 - (y : ℚ) / (WINDOW_H : ℚ)
    { st with tone_amp := mouse_y_relative, tone_freq := 40 + 1000 * mouse_x_relative }
  | .other => st

/-- The events polled so far, handled in queue order. -/
def handle_events (st : LoopState) (events : List SDL_Event) : LoopState :=
  events.foldl handle_event st

/-! ## Bounds used in the statements -/

/-- The value 26213.6, `INT16_MAX * GLOBAL_AMP`: `max_amp` at `tone_amp = 1`. -/
def peak_bound : ℚ := 131068 / 5

/-- The value 1135.93, just above `amp_increment` at `tone_freq = 1040` and
`tone_amp = 1`. -/
def inc_bound : ℚ := 113593 / 100

/-- A pointer-motion event whose coordinates lie inside the window; every
other event passes. -/
def in_window : SDL_Event → Prop
  | .SDL_MOUSEMOTION x y => 0 ≤ x ∧ x < WINDOW_W ∧ 0 ≤ y ∧ y < WINDOW_H
  | _ => True

instance (e : SDL_Event) : Decidable (in_window e) := by
  cases e <;> unfold in_window <;> infer_instance

/-! ## Lemmas on the conversions -/

theorem trunc_eq_zero {q : ℚ} (h1 : -1 < q) (h2 : q < 1) : trunc q = 0 := by
  unfold trunc
  split
  · rw [Int.floor_eq_zero_iff]
    exact ⟨by assumption, h2⟩
  · rw [Int.ceil_eq_zero_iff]
    exact ⟨h1, by linarith⟩

theorem toSint16_eq_zero {q : ℚ} (h1 : -1 < q) (h2 : q < 1) : toSint16 q = some 0 := by
  simp [toSint16, trunc_eq_zero h1 h2, INT16_MIN, INT16_MAX]

theorem trunc_lower {q : ℚ} {z : Int} (h : (z : ℚ) ≤ q) : z ≤ trunc q := by
  unfold trunc
  split
  · exact Int.le_floor.mpr h
  · exact le_trans (Int.le_floor.mpr h) (Int.floor_le_ceil q)

theorem trunc_upper {q : ℚ} {z : Int} (h : q ≤ (z : ℚ)) : trunc q ≤ z := by
  unfold trunc
  split
  · exact le_trans (Int.floor_le_ceil q) (Int.ceil_le.mpr h)
  · exact Int.ceil_le.mpr h

theorem toSint16_isSome {q : ℚ} (h1 : -32767 ≤ q) (h2 : q ≤ 32767) :
    (toSint16 q).isSome = true := by
  have a1 : (-32767 : Int) ≤ trunc q := trunc_lower (by push_cast; exact h1)
  have a2 : trunc q ≤ (32767 : Int) := trunc_upper (by push_cast; exact h2)
  have : INT16_MIN ≤ trunc q ∧ trunc q ≤ INT16_MAX := by
    constructor
    · unfold INT16_MIN; omega
    · unfold INT16_MAX; omega
  simp [toSint16, this]

/-! ## Lemmas on the generator loop -/

theorem saw_loop_length (inc mx : ℚ) (n : Nat) (s : ℚ) :
    (saw_loop inc mx n s).1.length = n := by
  induction n generalizing s with
  | zero => rfl
  | succ k ih => simp [saw_loop, ih]

/-- Inside one call consecutive running amplitudes are related by `loop_step`. -/
theorem saw_loop_next (inc mx : ℚ) (n : Nat) (s : ℚ) (i : Nat) (v : ℚ)
    (hv : (saw_loop inc mx n s).1[i]? = some v) (hi : i + 1 < n) :
    (saw_loop inc mx n s).1[i + 1]? = some (loop_step inc mx v) := by
  induction n generalizing s i with
  | zero => omega
  | succ k ih =>
    cases i with
    | zero =>
      simp only [saw_loop, List.getElem?_cons_zero, Option.some.injEq] at hv
      subst hv
      obtain ⟨j, rfl⟩ : ∃ j, k = j + 1 := ⟨k - 1, by omega⟩
      simp [saw_loop]
    | succ j =>
      simp only [saw_loop, List.getElem?_cons_succ] at hv ⊢
      exact ih _ j hv (by omega)

/-- With increment and peak both zero the loop keeps the running amplitude
strictly between -1 and 1 once it is there. -/
theorem saw_loop_zero_small (n : Nat) (s : ℚ) (h1 : -1 < s) (h2 : s < 1) :
    ∀ v ∈ (saw_loop 0 0 n s).1, -1 < v ∧ v < 1 := by
  induction n generalizing s with
  | zero => simp [saw_loop]
  | succ k ih =>
    intro v hv
    simp only [saw_loop, List.mem_cons] at hv
    rcases hv with rfl | hv
    · exact ⟨h1, h2⟩
    · refine ih (loop_step 0 0 s) ?_ ?_ v hv
      · unfold loop_step; split <;> norm_num; linarith
      · unfold loop_step; split <;> norm_num; linarith

theorem max_amp_bounds {a : ℚ} (h0 : 0 ≤ a) (h1 : a ≤ 1) :
    0 ≤ max_amp a ∧ max_amp a ≤ peak_bound := by
  unfold max_amp peak_bound GLOBAL_AMP INT16_MAX
  push_cast
  constructor <;> linarith

theorem amp_increment_eq (f a : ℚ) :
    amp_increment f a = 2 * max_amp a * f / 48000 := by
  unfold amp_increment max_amp wavelen_samples max_amp_range GLOBAL_AMP INT16_MAX SAMPLE_RATE
  push_cast
  rw [div_div_eq_mul_div]
  ring

theorem amp_increment_bounds {f a : ℚ} (hf0 : 40 ≤ f) (hf1 : f ≤ 1040) (h0 : 0 ≤ a)
    (h1 : a ≤ 1) : 0 ≤ amp_increment f a ∧ amp_increment f a < inc_bound := by
  obtain ⟨p0, p1⟩ := max_amp_bounds h0 h1
  rw [amp_increment_eq]
  unfold peak_bound at p1
  unfold inc_bound
  constructor
  · have : 0 ≤ max_amp a * f := mul_nonneg p0 (by linarith)
    linarith
  · have e1 : max_amp a * f ≤ max_amp a * 1040 := mul_le_mul_of_nonneg_left hf1 p0
    linarith

/-- One pass of the loop brings a running amplitude that is at least
`-peak_bound` into the band `[-peak_bound, peak_bound + inc_bound)`. -/
theorem loop_step_band {inc mx v : ℚ} (hi0 : 0 ≤ inc) (hi1 : inc < inc_bound)
    (hm0 : 0 ≤ mx) (hm1 : mx ≤ peak_bound) (hv : -peak_bound ≤ v) :
    -peak_bound ≤ loop_step inc mx v ∧ loop_step inc mx v < peak_bound + inc_bound := by
  unfold loop_step
  split
  · constructor <;> linarith
  · constructor <;> linarith

/-- From a running amplitude inside the band the loop emits only values of
the band and ends inside it. -/
theorem saw_loop_band {inc mx : ℚ} (hi0 : 0 ≤ inc) (hi1 : inc < inc_bound)
    (hm0 : 0 ≤ mx) (hm1 : mx ≤ peak_bound) (n : Nat) (s : ℚ) (h1 : -peak_bound ≤ s)
    (h2 : s < peak_bound + inc_bound) :
    (∀ v ∈ (saw_loop inc mx n s).1, -peak_bound ≤ v ∧ v < peak_bound + inc_bound) ∧
      -peak_bound ≤ (saw_loop inc mx n s).2 ∧
      (saw_loop inc mx n s).2 < peak_bound + inc_bound := by
  induction n generalizing s with
  | zero => simp [saw_loop, h1, h2]
  | succ k ih =>
    obtain ⟨b1, b2⟩ := loop_step_band hi0 hi1 hm0 hm1 h1
    obtain ⟨r1, r2, r3⟩ := ih (loop_step inc mx s) b1 b2
    refine ⟨?_, r2, r3⟩
    intro v hv
    simp only [saw_loop, List.mem_cons] at hv
    rcases hv with rfl | hv
    · exact ⟨h1, h2⟩
    · exact r1 v hv

/-- One call with in-window parameters for at least one sample, entered with
`saved_amplitude` inside the band: every running amplitude handed to the cast
is within the 16-bit range and `saved_amplitude` ends inside the band. -/
theorem generate_saw_wav_band {f a s : ℚ} {n : Int} (hf0 : 40 ≤ f) (hf1 : f ≤ 1040)
    (h0 : 0 ≤ a) (h1 : a ≤ 1) (hn : 1 ≤ n) (hs1 : -peak_bound ≤ s)
    (hs2 : s < peak_bound + inc_bound) :
    (∀ v ∈ (generate_saw_wav f a s n).running, -32767 ≤ v ∧ v ≤ 32767) ∧
      -peak_bound ≤ (generate_saw_wav f a s n).saved_amplitude ∧
      (generate_saw_wav f a s n).saved_amplitude < peak_bound + inc_bound := by
  obtain ⟨i0, i1⟩ := amp_increment_bounds hf0 hf1 h0 h1
  obtain ⟨m0, m1⟩ := max_amp_bounds h0 h1
  obtain ⟨k, hk⟩ : ∃ k, n.toNat = k + 1 := ⟨n.toNat - 1, by omega⟩
  have hstart : -peak_bound ≤ s + amp_increment f a := by linarith
  obtain ⟨b1, b2⟩ := loop_step_band i0 i1 m0 m1 hstart
  obtain ⟨r1, r2, r3⟩ := saw_loop_band i0 i1 m0 m1 k _ b1 b2
  simp only [generate_saw_wav, hk, saw_loop, List.mem_cons]
  refine ⟨?_, r2, r3⟩
  intro v hv
  unfold peak_bound inc_bound at *
  rcases hv with rfl | hv
  · constructor <;> linarith
  · obtain ⟨c1, c2⟩ := r1 v hv
    constructor <;> linarith

/-! ## Lemmas on binary64 rounding -/

/-- The `while` loop of `draw_waveform` with `m` columns left runs its body
`m` times, pass `j` at column `x + j` with the accumulator obtained from
`si` by `j` rounded additions of the stride. -/
theorem draw_loop_eq (buf : List Int) (rect : SDL_Rect) (mid_y : Int) (spd : ℚ)
    (m : Nat) (x : Int) (si : ℚ) (hm : rect.x + rect.w - x = (m : Int)) :
    draw_loop buf rect mid_y spd x si =
      (List.range m).map fun (j : Nat) =>
        draw_line buf rect mid_y (x + (j : Int)) ((fun s => round_double (s + spd))^[j] si) := by
  induction m generalizing x si with
  | zero =>
    rw [draw_loop, if_neg (by omega)]
    rfl
  | succ k ih =>
    rw [draw_loop, if_pos (by omega), ih (x + 1) (round_double (si + spd)) (by omega),
      List.range_succ_eq_map, List.map_cons, List.map_map]
    congr 1
    · simp
    · apply List.map_congr_left
      intro j _
      simp only [Function.comp, Nat.succ_eq_add_one, Function.iterate_succ_apply]
      congr 1
      push_cast; ring

/-- C1 (defect of the code, evaluated at the failing input): with the pointer
at (499, 0) the mapping sets `tone_freq = 1038` and `tone_amp = 1`, so the
peak is 32767 * 1 * 0.8 = 26213.6; in the first call from
`saved_amplitude = 0` the running amplitude at index 23 is 27209.7168, stored
as the sample 27209, which is above the peak. -/
theorem generate_saw_wav_sample_above_peak :
    (handle_event main_init (.SDL_MOUSEMOTION 499 0)).tone_freq = 1038 ∧
      (handle_event main_init (.SDL_MOUSEMOTION 499 0)).tone_amp = 1 ∧
      (generate_saw_wav 1038 1 0 24).running[23]? = some (17006073 / 625) ∧
      (generate_saw_wav 1038 1 0 24).buffer[23]? = some (some 27209) ∧
      max_amp 1 = 131068 / 5 ∧ max_amp 1 < 27209 := by
  refine ⟨?_, ?_, ?_, ?_, ?_, ?_⟩
  · norm_num [handle_event, WINDOW_W]
  · norm_num [handle_event, WINDOW_H]
  · norm_num [generate_saw_wav, saw_loop, loop_step, amp_increment, max_amp, max_amp_range,
      wavelen_samples, GLOBAL_AMP, INT16_MAX, SAMPLE_RATE]
  · norm_num [GenResult.buffer, generate_saw_wav, saw_loop, loop_step, amp_increment, max_amp,
      max_amp_range, wavelen_samples, GLOBAL_AMP, INT16_MAX, INT16_MIN, SAMPLE_RATE, toSint16,
      trunc]
  · norm_num [max_amp, GLOBAL_AMP, INT16_MAX]
  · norm_num [max_amp, GLOBAL_AMP, INT16_MAX]

/-- C2 (defect of the code, evaluated at the failing input): at 240 Hz and
amplitude 1 the increment is 262.136.  Two calls of one sample each from
`saved_amplitude = 0` emit one and then three increments and save four; one
call of two samples emits one and two increments and saves three.  The step
across the call boundary is two increments. -/
theorem generate_saw_wav_boundary_two_increments :
    amp_increment 240 1 = 32767 / 125 ∧
      generate_saw_wav 240 1 0 1 =
        { running := [32767 / 125], saved_amplitude := 65534 / 125 } ∧
      generate_saw_wav 240 1 (65534 / 125) 1 =
        { running := [98301 / 125], saved_amplitude := 131068 / 125 } ∧
      generate_saw_wav 240 1 0 2 =
        { running := [32767 / 125, 65534 / 125], saved_amplitude := 98301 / 125 } := by
  refine ⟨?_, ?_, ?_, ?_⟩ <;>
  norm_num [generate_saw_wav, saw_loop, loop_step, amp_increment, max_amp, max_amp_range,
      wavelen_samples, GLOBAL_AMP, INT16_MAX, SAMPLE_RATE]

/-- C4 (defect of the code, evaluated at the failing input): a call with
`len_samples = 0` writes nothing and leaves `saved_amplitude` one increment
further; with the defaults 220 Hz and 0.1 it goes from 0 to 24.029... -/
theorem generate_saw_wav_zero_len_advances :
    (∀ f a s : ℚ, generate_saw_wav f a s 0 =
        { running := [], saved_amplitude := s + amp_increment f a }) ∧
      generate_saw_wav 220 (1 / 10) 0 0 =
        { running := [], saved_amplitude := 360437 / 15000 } ∧
      (generate_saw_wav 220 (1 / 10) 0 0).buffer = [] := by
  refine ⟨fun f a s => rfl, ?_, rfl⟩
  norm_num [generate_saw_wav, saw_loop, amp_increment, max_amp_range,
      wavelen_samples, GLOBAL_AMP, INT16_MAX, SAMPLE_RATE]

/-- C3 (the claim as stated fails): at 16000 Hz and amplitude 1/2 the peak is
13106.8 and the increment 8737.866...; the first running amplitude is below
the peak, one more increment is above it, and the next sample emitted is that
overshoot 17475.733..., not the negative peak plus the remainder. -/
theorem wrap_drops_remainder :
    (generate_saw_wav 16000 (1 / 2) 0 2).running = [131068 / 15, 262136 / 15] ∧
      max_amp (1 / 2) = 65534 / 5 ∧ amp_increment 16000 (1 / 2) = 131068 / 15 ∧
      (131068 / 15 : ℚ) < max_amp (1 / 2) ∧
      (131068 / 15 : ℚ) + amp_increment 16000 (1 / 2) > max_amp (1 / 2) ∧
      (262136 / 15 : ℚ) ≠
        -max_amp (1 / 2) + (131068 / 15 + amp_increment 16000 (1 / 2) - max_amp (1 / 2)) := by
  refine ⟨?_, ?_, ?_, ?_, ?_, ?_⟩ <;>
  norm_num [generate_saw_wav, saw_loop, loop_step, amp_increment, max_amp, max_amp_range,
      wavelen_samples, GLOBAL_AMP, INT16_MAX, SAMPLE_RATE]

/-- C3 (amended): for every frequency f > 0 and amplitude a in (0,1], whenever
an emitted running amplitude v has reached the peak (v >= max_amp) and another
sample follows in the same call, the next emitted running amplitude is the
negative peak plus one increment. -/
theorem wrap_resets_to_negative_peak (f a s : ℚ) (n : Int) (i : Nat) (v : ℚ)
    (_hf : 0 < f) (_ha0 : 0 < a) (_ha1 : a ≤ 1)
    (hv : (generate_saw_wav f a s n).running[i]? = some v)
    (hi : (i : Int) + 1 < n) (hpeak : max_amp a ≤ v) :
    (generate_saw_wav f a s n).running[i + 1]? =
      some (-max_amp a + amp_increment f a) := by
  have hstep : loop_step (amp_increment f a) (max_amp a) v =
      -max_amp a + amp_increment f a := by
    unfold loop_step
    rw [if_pos hpeak]
    ring
  rw [← hstep]
  exact saw_loop_next _ _ _ _ i v hv (by omega)

/-- Witness of C3 (amended): at 12000 Hz and amplitude 1 the second running
amplitude is the peak 26213.6 and the third is the negative peak plus one
increment. -/
theorem wrap_resets_to_negative_peak_witness :
    (generate_saw_wav 12000 1 0 3).running[1]? = some (131068 / 5) ∧
      max_amp 1 ≤ 131068 / 5 ∧
      (generate_saw_wav 12000 1 0 3).running[1 + 1]? =
        some (-max_amp 1 + amp_increment 12000 1) :=
  have hv : (generate_saw_wav 12000 1 0 3).running[1]? = some (131068 / 5) := by
    norm_num [generate_saw_wav, saw_loop, loop_step, amp_increment, max_amp, max_amp_range,
      wavelen_samples, GLOBAL_AMP, INT16_MAX, SAMPLE_RATE]
  have hp : max_amp 1 ≤ 131068 / 5 := by norm_num [max_amp, GLOBAL_AMP, INT16_MAX]
  ⟨hv, hp, wrap_resets_to_negative_peak 12000 1 0 3 1 (131068 / 5) (by norm_num)
    (by norm_num) (by norm_num) hv (by norm_num) hp⟩

/-- C5 (the claim as stated fails): with `tone_amp = 0` and a carried-over
`saved_amplitude` of -100, a call for three samples at 220 Hz writes -100
three times. -/
theorem amp_zero_keeps_offset :
    (generate_saw_wav 220 0 (-100) 3).running = [-100, -100, -100] ∧
      (generate_saw_wav 220 0 (-100) 3).buffer = [some (-100), some (-100), some (-100)] ∧
      ¬ ∀ b ∈ (generate_saw_wav 220 0 (-100) 3).buffer, b = some 0 := by
  have hr : (generate_saw_wav 220 0 (-100) 3).running = [-100, -100, -100] := by
    norm_num [generate_saw_wav, saw_loop, loop_step, amp_increment, max_amp, max_amp_range,
      wavelen_samples, GLOBAL_AMP, INT16_MAX, SAMPLE_RATE]
  have hb : (generate_saw_wav 220 0 (-100) 3).buffer =
      [some (-100), some (-100), some (-100)] := by
    have hc : ⌈(-100 : ℚ)⌉ = -100 := by
      rw [Int.ceil_eq_iff]
      norm_num
    rw [GenResult.buffer, hr]
    norm_num [toSint16, trunc, INT16_MIN, INT16_MAX, hc]
  refine ⟨hr, hb, ?_⟩
  rw [hb]
  intro h
  have := h (some (-100)) (by simp)
  simp at this

/-- C5 (amended): with `tone_amp = 0`, for every frequency f > 0, every
sample count n and every carried-over `saved_amplitude` strictly between -1
and 1 (the initial 0 among them), the call writes `n` samples and every one
of them is 0. -/
theorem amp_zero_silent (f s : ℚ) (n : Int) (_hf : 0 < f) (h1 : -1 < s) (h2 : s < 1) :
    (generate_saw_wav f 0 s n).buffer.length = n.toNat ∧
      ∀ b ∈ (generate_saw_wav f 0 s n).buffer, b = some 0 := by
  have hinc : amp_increment f 0 = 0 := by simp [amp_increment]
  have hmx : max_amp 0 = 0 := by simp [max_amp]
  constructor
  · simp [GenResult.buffer, generate_saw_wav, saw_loop_length]
  · intro b hb
    simp only [GenResult.buffer, generate_saw_wav, hinc, hmx, add_zero, List.mem_map] at hb
    obtain ⟨v, hv, rfl⟩ := hb
    obtain ⟨c1, c2⟩ := saw_loop_zero_small n.toNat s h1 h2 v hv
    exact toSint16_eq_zero c1 c2

/-- Witness of C5 (amended): from the initial `saved_amplitude = 0`, a chunk
of 1024 samples at 220 Hz. -/
theorem amp_zero_silent_witness :
    (0 : ℚ) < 220 ∧ (-1 : ℚ) < 0 ∧ (0 : ℚ) < 1 ∧
      (generate_saw_wav 220 0 0 1024).buffer.length = (1024 : Int).toNat ∧
      ∀ b ∈ (generate_saw_wav 220 0 0 1024).buffer, b = some 0 :=
  ⟨by norm_num, by norm_num, by norm_num,
    amp_zero_silent 220 0 1024 (by norm_num) (by norm_num) (by norm_num)⟩
/-- C8 (the claim as stated fails): in binary64 at 240 Hz and amplitude 1/2,
from `saved_amplitude = 0`, the hundredth running sum 13106.799999999983 is
just below the peak 13106.800000000001, so the first reset comes one sample
later: among the first 303 of the 1024 samples the running amplitude drops
after index 100 and next after index 301, which is 201 samples later, not
200. -/
theorem saw_240hz_resets_201_apart :
    (generate_saw_wav_f64 240 (1 / 2) 0 1024).running[99]? =
        some (7205539501467229 / 549755813888) ∧
      max_amp_f64 (1 / 2) = 7205539501467239 / 549755813888 ∧
      drop_indices 0 ((generate_saw_wav_f64 240 (1 / 2) 0 1024).running.take 303) =
        [100, 301] := by
  refine ⟨?_, ?_, ?_⟩
  · decide!
  · decide!
  · decide!

/-- Successive calls with in-window parameters, each for at least one
sample, entered with `saved_amplitude` inside the band: the bounds hold in
every call. -/
theorem run_calls_band (calls : List (ℚ × ℚ × Int)) (s : ℚ)
    (h : ∀ c ∈ calls, 40 ≤ c.1 ∧ c.1 ≤ 1040 ∧ 0 ≤ c.2.1 ∧ c.2.1 ≤ 1 ∧ 1 ≤ c.2.2)
    (hs1 : -peak_bound ≤ s) (hs2 : s < peak_bound + inc_bound) :
    ∀ r ∈ run_calls s calls,
      (∀ v ∈ r.running, -32767 ≤ v ∧ v ≤ 32767) ∧
        -peak_bound ≤ r.saved_amplitude ∧ r.saved_amplitude < peak_bound + inc_bound := by
  induction calls generalizing s with
  | nil => simp [run_calls]
  | cons c rest ih =>
    obtain ⟨f, a, n⟩ := c
    obtain ⟨hf0, hf1, h0, h1, hn⟩ := h (f, a, n) (List.mem_cons_self _ _)
    have hcall := generate_saw_wav_band hf0 hf1 h0 h1 hn hs1 hs2
    intro r hr
    simp only [run_calls, List.mem_cons] at hr
    rcases hr with rfl | hr
    · exact hcall
    · exact ih _ (fun c hc => h c (List.mem_cons_of_mem _ hc)) hcall.2.1 hcall.2.2 r hr

/-- C10: from `saved_amplitude = 0`, over every sequence of calls each for at
least one sample, with any frequency in [40, 1040] and any amplitude in [0,1]
per call, every running amplitude handed to the `(Sint16)` cast lies in
[-32767, 32767] (so the conversion is defined), and `saved_amplitude` after
every call lies in [-26213.6, 26213.6 + 1135.93). -/
theorem sint16_cast_in_range (calls : List (ℚ × ℚ × Int))
    (h : ∀ c ∈ calls, 40 ≤ c.1 ∧ c.1 ≤ 1040 ∧ 0 ≤ c.2.1 ∧ c.2.1 ≤ 1 ∧ 1 ≤ c.2.2) :
    ∀ r ∈ run_calls 0 calls,
      (∀ v ∈ r.running, -32767 ≤ v ∧ v ≤ 32767 ∧ (toSint16 v).isSome = true) ∧
        (-(131068 / 5) : ℚ) ≤ r.saved_amplitude ∧
        r.saved_amplitude < 131068 / 5 + 113593 / 100 := by
  intro r hr
  obtain ⟨b1, b2, b3⟩ := run_calls_band calls 0 h (by norm_num [peak_bound])
    (by norm_num [peak_bound, inc_bound]) r hr
  unfold peak_bound at b2 b3
  unfold inc_bound at b3
  refine ⟨fun v hv => ?_, b2, b3⟩
  obtain ⟨c1, c2⟩ := b1 v hv
  exact ⟨c1, c2, toSint16_isSome c1 c2⟩

/-- Witness of C10: a one-sample call at 1040 Hz and amplitude 1, then two
samples at 40 Hz and amplitude 1/2. -/
theorem sint16_cast_in_range_witness :
    (∀ c ∈ [((1040 : ℚ), (1 : ℚ), (1 : Int)), (40, 1 / 2, 2)],
        40 ≤ c.1 ∧ c.1 ≤ 1040 ∧ 0 ≤ c.2.1 ∧ c.2.1 ≤ 1 ∧ 1 ≤ c.2.2) ∧
      ∀ r ∈ run_calls 0 [((1040 : ℚ), (1 : ℚ), (1 : Int)), (40, 1 / 2, 2)],
        (∀ v ∈ r.running, -32767 ≤ v ∧ v ≤ 32767 ∧ (toSint16 v).isSome = true) ∧
          (-(131068 / 5) : ℚ) ≤ r.saved_amplitude ∧
          r.saved_amplitude < 131068 / 5 + 113593 / 100 :=
  have hc : ∀ c ∈ [((1040 : ℚ), (1 : ℚ), (1 : Int)), (40, 1 / 2, 2)],
      40 ≤ c.1 ∧ c.1 ≤ 1040 ∧ 0 ≤ c.2.1 ∧ c.2.1 ≤ 1 ∧ 1 ≤ c.2.2 := by
    intro c hc
    simp only [List.mem_cons, List.mem_singleton, List.not_mem_nil, or_false] at hc
    rcases hc with rfl | rfl <;> norm_num
  ⟨hc, sint16_cast_in_range _ hc⟩

/-! ## The visualizer: settled claim -/

/-- C7 (the claim as stated fails): on the rectangle `main` passes,
(20, 150, 460, 200), the pass k = 115 reads the buffer at index 255, while
floor(115 * 1024 / 460) is 256: the 115 rounded additions of the rounded
stride 1024/460 end just below 256. -/
theorem draw_waveform_index_below_quotient :
    ((draw_waveform (List.replicate 1024 0) ⟨20, 150, 460, 200⟩).bind
        fun calls => calls[115]?).map DrawCall.index = some 255 ∧
      (115 : Int) * 1024 / 460 = 256 := by
  constructor
  · have hdw : draw_waveform (List.replicate 1024 0) ⟨20, 150, 460, 200⟩ =
        some (draw_loop (List.replicate 1024 0) ⟨20, 150, 460, 200⟩ (150 + Int.tdiv 200 2)
          (round_double ((CHUNK_LEN_SAMPLES : ℚ) / ((460 : Int) : ℚ))) 20 0) := by
      unfold draw_waveform
      rw [if_pos (by decide)]
    rw [hdw, draw_loop_eq _ _ _ _ 460 20 0 (by decide)]
    simp only [Option.some_bind, List.getElem?_map, List.getElem?_range (by norm_num : 115 < 460),
      Option.map_some', draw_line]
    decide!
  · decide

/-- One in-window event keeps `tone_freq > 0` and `tone_amp` in [0,1]. -/
theorem handle_event_inv (st : LoopState) (e : SDL_Event) (he : in_window e)
    (h : 0 < st.tone_freq ∧ 0 ≤ st.tone_amp ∧ st.tone_amp ≤ 1) :
    0 < (handle_event st e).tone_freq ∧ 0 ≤ (handle_event st e).tone_amp ∧
      (handle_event st e).tone_amp ≤ 1 := by
  cases e with
  | SDL_QUIT => exact h
  | SDL_KEYDOWN sc => cases sc <;> exact h
  | other => exact h
  | SDL_MOUSEMOTION x y =>
    obtain ⟨x0, x1, y0, y1⟩ := he
    unfold WINDOW_W at x1
    unfold WINDOW_H at y1
    have qx0 : (0 : ℚ) ≤ (x : ℚ) := by exact_mod_cast x0
    have qy0 : (0 : ℚ) ≤ (y : ℚ) := by exact_mod_cast y0
    have qy1 : (y : ℚ) < 500 := by exact_mod_cast y1
    simp only [handle_event, WINDOW_W, WINDOW_H]
    push_cast
    refine ⟨?_, ?_, ?_⟩
    · have : (0 : ℚ) ≤ (x : ℚ) / 500 := by positivity
      linarith
    · have : (y : ℚ) / 500 < 1 := by rw [div_lt_one (by norm_num)]; exact qy1
      linarith
    · have : (0 : ℚ) ≤ (y : ℚ) / 500 := by positivity
      linarith

/-- C6: in every state reached from the defaults of `main` (220 Hz, 0.1) by
any sequence of events whose pointer-motion events have coordinates inside
the window, `tone_freq > 0` and `tone_amp` lies in [0,1]. -/
theorem tone_parameters_invariant (events : List SDL_Event)
    (h : ∀ e ∈ events, in_window e) :
    0 < (handle_events main_init events).tone_freq ∧
      0 ≤ (handle_events main_init events).tone_amp ∧
      (handle_events main_init events).tone_amp ≤ 1 := by
  have key : ∀ (evs : List SDL_Event) (st : LoopState), (∀ e ∈ evs, in_window e) →
      (0 < st.tone_freq ∧ 0 ≤ st.tone_amp ∧ st.tone_amp ≤ 1) →
      0 < (handle_events st evs).tone_freq ∧ 0 ≤ (handle_events st evs).tone_amp ∧
        (handle_events st evs).tone_amp ≤ 1 := by
    intro evs
    induction evs with
    | nil => intro st _ hst; exact hst
    | cons e rest ih =>
      intro st hin hst
      simp only [handle_events, List.foldl_cons]
      exact ih (handle_event st e) (fun e2 h2 => hin e2 (List.mem_cons_of_mem _ h2))
        (handle_event_inv st e (hin e (List.mem_cons_self _ _)) hst)
  exact key events main_init h (by norm_num [main_init])

/-- Witness of C6: the pointer moves to the bottom-left corner, the resume
key is pressed, the pointer moves to the top-right corner. -/
theorem tone_parameters_invariant_witness :
    (∀ e ∈ [SDL_Event.SDL_MOUSEMOTION 0 499, .SDL_KEYDOWN .SDL_SCANCODE_L,
        .SDL_MOUSEMOTION 499 0], in_window e) ∧
      0 < (handle_events main_init [SDL_Event.SDL_MOUSEMOTION 0 499,
        .SDL_KEYDOWN .SDL_SCANCODE_L, .SDL_MOUSEMOTION 499 0]).tone_freq ∧
      0 ≤ (handle_events main_init [SDL_Event.SDL_MOUSEMOTION 0 499,
        .SDL_KEYDOWN .SDL_SCANCODE_L, .SDL_MOUSEMOTION 499 0]).tone_amp ∧
      (handle_events main_init [SDL_Event.SDL_MOUSEMOTION 0 499,
        .SDL_KEYDOWN .SDL_SCANCODE_L, .SDL_MOUSEMOTION 499 0]).tone_amp ≤ 1 :=
  have hin : ∀ e ∈ [SDL_Event.SDL_MOUSEMOTION 0 499, .SDL_KEYDOWN .SDL_SCANCODE_L,
      .SDL_MOUSEMOTION 499 0], in_window e := by
    intro e he
    simp only [List.mem_cons, List.mem_singleton, List.not_mem_nil, or_false] at he
    rcases he with rfl | rfl | rfl <;> simp [in_window, WINDOW_W, WINDOW_H]
  ⟨hin, tone_parameters_invariant _ hin⟩

/-- C9: a pointer-motion event at (x, y) sets `tone_amp = 1 - y/500` and
`tone_freq = 40 + 1000 * (x/500)` for every x and y; at the center
(250, 250) of the window this is amplitude 1/2 and 540 Hz. -/
theorem pointer_mapping (st : LoopState) (x y : Int) :
    (handle_event st (.SDL_MOUSEMOTION x y)).tone_amp = 1 - (y : ℚ) / 500 ∧
      (handle_event st (.SDL_MOUSEMOTION x y)).tone_freq = 40 + 1000 * ((x : ℚ) / 500) ∧
      (handle_event st (.SDL_MOUSEMOTION 250 250)).tone_amp = 1 / 2 ∧
      (handle_event st (.SDL_MOUSEMOTION 250 250)).tone_freq = 540 := by
  refine ⟨?_, ?_, ?_, ?_⟩ <;> norm_num [handle_event, WINDOW_W, WINDOW_H]

end Theremin
